/-
Verification of the DSS (distributed storage service) repository:
stripe codec (`src/utils/file_ops.py`), the user-side copy/read/recovery
pipelines (`src/user.py`), and the manager state machine (`src/manager.py`).

Bytes are modelled as `Nat` (Python `bytearray` entries are in `[0, 256)`;
all operations used here — XOR, comparisons — agree with `Nat` operations
on that range), byte buffers as `List Nat`, and Python dicts as
insertion-ordered association lists.
-/
import Mathlib

namespace DssVerify


/-! ## Stripe codec: `src/utils/file_ops.py` -/

/-- One pass of the XOR accumulation loop inside `calculate_parity`
(`file_ops.py` lines 25-28): `for i in range(len(parity)): if i < len(block):
parity[i] ^= block[i]`.  Positions of `parity` beyond `block`'s length are
left unchanged; `parity` keeps its own length. -/
def xorInto (parity block : List Nat) : List Nat :=
  (parity.zipWith (fun a b => a ^^^ b) block) ++ parity.drop block.length

/-- `calculate_parity` (`file_ops.py` lines 8-30): XOR of all blocks byte by
byte, starting from a copy of the first block; empty input gives an empty
buffer. -/
def calculate_parity : List (List Nat) → List Nat
  | [] => []
  | b :: rest => rest.foldl xorInto b

/-- `calculate_stripe_count` (`file_ops.py` lines 32-46):
`math.ceil(file_size / ((n-1) * block_size))`, i.e. the ceiling of the exact
division, written with Nat arithmetic. -/
def calculate_stripe_count (file_size n block_size : Nat) : Nat :=
  (file_size + (n - 1) * block_size - 1) / ((n - 1) * block_size)

/-- `get_parity_disk_index` (`file_ops.py` lines 48-59):
`n - ((stripe_num % n) + 1)`. -/
def get_parity_disk_index (stripe_num n : Nat) : Nat :=
  n - ((stripe_num % n) + 1)

/-- `pad_block` (`file_ops.py` lines 61-78): truncate to `block_size` if
longer, otherwise extend with zero bytes. -/
def pad_block (data : List Nat) (block_size : Nat) : List Nat :=
  if data.length ≥ block_size then data.take block_size
  else data ++ List.replicate (block_size - data.length) 0

/-- `inject_single_bit_error` (`file_ops.py` lines 80-103) with the two
`random.randint` draws (`byte_index ∈ [0, len-1]`, `bit_position ∈ [0, 7]`)
made explicit parameters: flip one bit of a copy of the block; an empty
block is returned unchanged. -/
def inject_single_bit_error (block_data : List Nat) (byte_index bit_position : Nat) :
    List Nat :=
  if block_data = [] then block_data
  else block_data.set byte_index ((block_data.getD byte_index 0) ^^^ (1 <<< bit_position))

/-- `verify_parity` (`file_ops.py` lines 105-117): recompute and compare. -/
def verify_parity (data_blocks : List (List Nat)) (parity_block : List Nat) : Bool :=
  calculate_parity data_blocks == parity_block

/-- The striping-unit validation of `Manager.configure_dss`
(`manager.py` lines 169-174): a power of two between 128 B and 1 MiB. -/
def validStripingUnit (u : Nat) : Bool :=
  128 ≤ u && u ≤ 1048576 && (u &&& (u - 1)) == 0

/-! ## Byte-wise XOR algebra (proof helpers)

`bxor` is the pointwise XOR of two buffers, truncating to the shorter one —
exactly Python's `bytearray(a ^ b for a, b in zip(x, y))`. -/

def bxor (a b : List Nat) : List Nat :=
  a.zipWith (fun x y => x ^^^ y) b

/-- XOR of a list of blocks, folded against the all-zero block of length `U`
(proof helper; with all blocks of length `U` this agrees with both
`calculate_parity` and the user's recovery fold). -/
def xorBlocks (U : Nat) (l : List (List Nat)) : List Nat :=
  l.foldr (fun b acc => bxor b acc) (List.replicate U 0)

/-- The XOR reconstruction fold of `User.recover_failed_disk`
(`user.py` lines 711-713): start from the first surviving block and XOR in
the rest pairwise (`zip` truncates to the shorter buffer). -/
def reconstructBlock : List (List Nat) → List Nat
  | [] => []
  | b :: rest => rest.foldl (fun acc blk => acc.zipWith (fun x y => x ^^^ y) blk) b

/-- The tag choice of `User.recover_failed_disk` (`user.py` lines 716-717),
specialised to the only stripe it processes (`stripe_num = 0`). -/
def recoveryBlockType (failed_disk_index n : Nat) : String :=
  if failed_disk_index = get_parity_disk_index 0 n then "parity" else "data"

/-! ## User copy / read pipelines (`src/user.py`)

The pure part of `User.copy_file_to_dss` (lines 284-362) and
`User.read_file_from_dss` (lines 421-528): slicing the file into stripes,
splitting into padded data blocks, parity placement, and on the read side
parity removal, concatenation and truncation to the file size.  Network
transport is the identity on block payloads (each `write-block` stores the
payload verbatim and `read-block` returns it, `disk.py` lines 150-211). -/

/-- Bytes of stripe `s`: `file_data[s*(n-1)*U : min((s+1)*(n-1)*U, size)]`
(`user.py` lines 312-317). -/
def stripeData (file_data : List Nat) (n U s : Nat) : List Nat :=
  (file_data.drop (s * ((n - 1) * U))).take ((n - 1) * U)

/-- The `n-1` zero-padded data blocks of stripe `s`
(`user.py` lines 319-328). -/
def stripeDataBlocks (file_data : List Nat) (n U s : Nat) : List (List Nat) :=
  (List.range (n - 1)).map
    (fun i => pad_block (((stripeData file_data n U s).drop (i * U)).take U) U)

/-- The slot-assembly loop of `User.copy_file_to_dss` (lines 336-347): walk
disk indices `j` through the remaining `k` slots; at the parity index place
the parity block, otherwise consume the next data block in order. -/
def buildStripeGo (parity_block : List Nat) (p : Nat) :
    Nat → Nat → List (List Nat) → List (List Nat)
  | 0, _, _ => []
  | k + 1, j, ds =>
    if j = p then parity_block :: buildStripeGo parity_block p k (j + 1) ds
    else ds.headD [] :: buildStripeGo parity_block p k (j + 1) ds.tail

/-- The full disk-indexed slot array of one stripe (`user.py` lines 336-347). -/
def buildStripe (n p : Nat) (parity_block : List Nat)
    (data_blocks : List (List Nat)) : List (List Nat) :=
  buildStripeGo parity_block p n 0 data_blocks

/-- Stripe `s` as written to the `n` disks by `User.copy_file_to_dss`. -/
def copyStripe (file_data : List Nat) (n U s : Nat) : List (List Nat) :=
  buildStripe n (get_parity_disk_index s n)
    (calculate_parity (stripeDataBlocks file_data n U s))
    (stripeDataBlocks file_data n U s)

/-- All stripes written by the copy pipeline (`user.py` lines 303-355). -/
def copyStripes (file_data : List Nat) (n U : Nat) : List (List (List Nat)) :=
  (List.range (calculate_stripe_count file_data.length n U)).map
    (copyStripe file_data n U)

/-- One stripe of `User.read_file_from_dss` (lines 471-494, with no error
injection, i.e. `error_prob = 0`): separate the block at the parity index
from the data blocks (preserving order), verify parity, and on success
return the concatenated data bytes; a failed verification or a missing
block makes the stripe (and hence the read) fail. -/
def readStripe (blocks : List (List Nat)) (s n : Nat) : Option (List Nat) :=
  match blocks[get_parity_disk_index s n]? with
  | none => none
  | some parity_block =>
    if verify_parity (blocks.eraseIdx (get_parity_disk_index s n)) parity_block then
      some (blocks.eraseIdx (get_parity_disk_index s n)).flatten
    else none

/-- The sequential per-stripe loop of `User.read_file_from_dss`
(lines 443-500), starting at stripe number `s`. -/
def readStripesFrom (n : Nat) : Nat → List (List (List Nat)) → Option (List Nat)
  | _, [] => some []
  | s, blocks :: rest =>
    match readStripe blocks s n with
    | none => none
    | some d =>
      match readStripesFrom n (s + 1) rest with
      | none => none
      | some out => some (d ++ out)

/-- The whole read pipeline: read every stripe in order and truncate the
output to the file size (`user.py` line 503). -/
def readPipeline (stripes : List (List (List Nat))) (n F : Nat) :
    Option (List Nat) :=
  (readStripesFrom n 0 stripes).map (fun out => out.take F)

/-! ### Chunking and padding lemmas -/

/-- Zero-pad a buffer on the right to length `c` (proof helper). -/
def padTo (x : List Nat) (c : Nat) : List Nat :=
  x ++ List.replicate (c - x.length) 0

/-! ## Manager state machine (`src/manager.py`)

Python dicts are modelled as insertion-ordered association lists (keys are
unique exactly as in a dict); `hasattr`-guarded attributes
(`copy_start_time`, `dss_selection_index`) are modelled as `Option`s that
start out `none`.  Python truthiness of a "present" check (`if not all([…])`)
makes the empty string and the integer `0` count as absent. -/

inductive Status where
  | SUCCESS
  | FAILURE
deriving DecidableEq

structure DiskDetail where
  disk_name : String
  ipv4_addr : String
  c_port : Nat
deriving DecidableEq

/-- The `data` object of a manager response (only the fields produced by
the handlers modelled here; `file_size` is filled by `read` only). -/
structure ResponseData where
  dss_name : String
  n : Nat
  striping_unit : Nat
  disks : List DiskDetail
  file_size : Option Nat
deriving DecidableEq

structure Response where
  status : Status
  message : Option String
  data : Option ResponseData
deriving DecidableEq

/-- `create_response` with only a failure message (`utils/message.py`). -/
def mkFailure (msg : String) : Response :=
  ⟨Status.FAILURE, some msg, none⟩

structure UserInfo where
  ipv4_addr : String
  m_port : Nat
  c_port : Nat
deriving DecidableEq

inductive DiskState where
  | Free
  | InDSS
deriving DecidableEq

structure DiskInfo where
  ipv4_addr : String
  m_port : Nat
  c_port : Nat
  state : DiskState
  dss_name : Option String
deriving DecidableEq

structure FileInfo where
  file_size : Nat
  owner : String
deriving DecidableEq

structure DssInfo where
  n : Nat
  striping_unit : Nat
  disks : List String
  files : List (String × FileInfo)
  owner : String
deriving DecidableEq

structure ReadRecord where
  dss_name : String
  file_name : String
  user_name : String
  timestamp : Nat
deriving DecidableEq

/-- The manager's mutable state (`manager.py` lines 8-17 plus the two
lazily created attributes `copy_start_time` and `dss_selection_index`). -/
structure ManagerState where
  registered_users : List (String × UserInfo)
  registered_disks : List (String × DiskInfo)
  configured_dsses : List (String × DssInfo)
  copy_in_progress : Bool
  reads_in_progress : List ReadRecord
  failure_in_progress : Bool
  decommission_in_progress : Bool
  copy_start_time : Option Nat
  dss_selection_index : Option Nat
deriving DecidableEq

def initialState : ManagerState :=
  ⟨[], [], [], false, [], false, false, none, none⟩

/-- Python dict assignment `d[k] = v`: overwrite in place when the key
exists, append at the end otherwise. -/
def dictInsert {β : Type} (k : String) (v : β) (l : List (String × β)) :
    List (String × β) :=
  if l.any (fun kv => kv.1 == k) then
    l.map (fun kv => if kv.1 == k then (k, v) else kv)
  else l ++ [(k, v)]

/-- The disk-detail lists the manager returns (`manager.py` e.g.
lines 310-319): registered disks of the DSS, in DSS order. -/
def diskDetails (s : ManagerState) (disk_names : List String) : List DiskDetail :=
  disk_names.filterMap (fun dn =>
    (s.registered_disks.lookup dn).map (fun di => ⟨dn, di.ipv4_addr, di.c_port⟩))

/-- Python string comparison: lexicographic on code points. -/
def charListLt : List Char → List Char → Bool
  | [], [] => false
  | [], _ :: _ => true
  | _ :: _, [] => false
  | x :: xs, y :: ys =>
    if x.toNat < y.toNat then true
    else if y.toNat < x.toNat then false
    else charListLt xs ys

def strLe (a b : String) : Bool :=
  a == b || charListLt a.data b.data

/-- Insertion used to model Python's `sorted` (`manager.py` line 292). -/
def insertSorted (a : String) : List String → List String
  | [] => [a]
  | b :: rest => if strLe a b then a :: b :: rest else b :: insertSorted a rest

def sortStrings : List String → List String
  | [] => []
  | a :: rest => insertSorted a (sortStrings rest)

/-- `sorted(list(self.configured_dsses.keys()))` (`manager.py` line 292). -/
def sortedDssNames (s : ManagerState) : List String :=
  sortStrings (s.configured_dsses.map Prod.fst)

/-! ### Registration handlers -/

structure RegisterParams where
  name : String
  ipv4_addr : String
  m_port : Nat
  c_port : Nat
deriving DecidableEq

def registerParamsPresent (p : RegisterParams) : Bool :=
  p.name != "" && p.ipv4_addr != "" && p.m_port != 0 && p.c_port != 0

/-- Name validation (`manager.py` line 86): at most 15 characters, all
alphanumeric. -/
def validName (s : String) : Bool :=
  s.length ≤ 15 && s.toList.all Char.isAlphanum

/-- `Manager.register_user` (`manager.py` lines 75-111). -/
def register_user (s : ManagerState) (p : RegisterParams) :
    ManagerState × Response :=
  if !(registerParamsPresent p) then (s, mkFailure "Missing required parameters")
  else if !(validName p.name) then (s, mkFailure "Invalid user name")
  else if s.registered_users.any (fun kv => kv.1 == p.name) then
    (s, mkFailure "User name already registered")
  else if s.registered_users.any
      (fun kv => kv.2.m_port == p.m_port || kv.2.c_port == p.c_port) then
    (s, mkFailure "Port already in use")
  else if s.registered_disks.any
      (fun kv => kv.2.m_port == p.m_port || kv.2.c_port == p.c_port) then
    (s, mkFailure "Port already in use")
  else
    ({ s with registered_users :=
        s.registered_users ++ [(p.name, ⟨p.ipv4_addr, p.m_port, p.c_port⟩)] },
      ⟨Status.SUCCESS, none, none⟩)

/-- `Manager.register_disk` (`manager.py` lines 113-150). -/
def register_disk (s : ManagerState) (p : RegisterParams) :
    ManagerState × Response :=
  if !(registerParamsPresent p) then (s, mkFailure "Missing required parameters")
  else if !(validName p.name) then (s, mkFailure "Invalid disk name")
  else if s.registered_disks.any (fun kv => kv.1 == p.name) then
    (s, mkFailure "Disk name already registered")
  else if s.registered_users.any
      (fun kv => kv.2.m_port == p.m_port || kv.2.c_port == p.c_port) then
    (s, mkFailure "Port already in use")
  else if s.registered_disks.any
      (fun kv => kv.2.m_port == p.m_port || kv.2.c_port == p.c_port) then
    (s, mkFailure "Port already in use")
  else
    ({ s with registered_disks :=
        s.registered_disks ++
          [(p.name, ⟨p.ipv4_addr, p.m_port, p.c_port, DiskState.Free, none⟩)] },
      ⟨Status.SUCCESS, none, none⟩)

/-- `Manager.deregister_user` (`manager.py` lines 621-634). -/
def deregister_user (s : ManagerState) (user_name : String) :
    ManagerState × Response :=
  if user_name == "" then (s, mkFailure "Missing user name")
  else if !(s.registered_users.any (fun kv => kv.1 == user_name)) then
    (s, mkFailure "User not found")
  else
    ({ s with registered_users :=
        s.registered_users.eraseP (fun kv => kv.1 == user_name) },
      ⟨Status.SUCCESS, none, none⟩)

/-- `Manager.deregister_disk` (`manager.py` lines 636-652). -/
def deregister_disk (s : ManagerState) (disk_name : String) :
    ManagerState × Response :=
  if disk_name == "" then (s, mkFailure "Missing disk name")
  else
    match s.registered_disks.lookup disk_name with
    | none => (s, mkFailure "Disk not found")
    | some di =>
      if di.state != DiskState.Free then
        (s, mkFailure "Disk is in use (InDSS state)")
      else
        ({ s with registered_disks :=
            s.registered_disks.eraseP (fun kv => kv.1 == disk_name) },
          ⟨Status.SUCCESS, none, none⟩)

/-! ### Copy handlers -/

structure CopyParams where
  file_name : String
  file_size : Nat
  owner : String
deriving DecidableEq

/-- `if not all([file_name, file_size, owner])` (`manager.py` line 288);
`file_size = 0` is falsy and counts as missing. -/
def copyParamsPresent (p : CopyParams) : Bool :=
  p.file_name != "" && p.file_size != 0 && p.owner != ""

structure CopyCompleteParams where
  file_name : String
  file_size : Nat
  owner : String
  dss_name : String
deriving DecidableEq

def copyCompleteParamsPresent (p : CopyCompleteParams) : Bool :=
  p.file_name != "" && p.file_size != 0 && p.owner != "" && p.dss_name != ""

/-- The critical-section entry logic of `Manager.copy_file`
(`manager.py` lines 269-281): result `false` means the request is refused;
result `true` means it proceeds (possibly after the 60-second timeout
override released the stale section, or after lazily initialising
`copy_start_time`). -/
def copyGate (s : ManagerState) (now : Nat) : ManagerState × Bool :=
  if s.copy_in_progress then
    match s.copy_start_time with
    | none => ({ s with copy_start_time := some now }, true)
    | some t =>
      if t + 60 < now then
        ({ s with copy_in_progress := false, copy_start_time := none }, true)
      else (s, false)
  else (s, true)

/-- The admission part of `Manager.copy_file` (lines 291-335): round-robin
selection over the lexicographically sorted DSS names, counter increment,
critical-section acquisition, and the returned DSS layout. -/
def copyAdmit (s : ManagerState) (now : Nat) : ManagerState × Response :=
  let names := sortedDssNames s
  let idx := s.dss_selection_index.getD 0
  let sel := names.getD (idx % names.length) ""
  let info := (s.configured_dsses.lookup sel).getD ⟨0, 0, [], [], ""⟩
  ({ s with dss_selection_index := some (idx + 1),
            copy_in_progress := true,
            copy_start_time := some now },
    ⟨Status.SUCCESS, none,
      some ⟨sel, info.n, info.striping_unit, diskDetails s info.disks, none⟩⟩)

/-- `Manager.copy_file` (`manager.py` lines 263-335). -/
def copy_file (s : ManagerState) (p : CopyParams) (now : Nat) :
    ManagerState × Response :=
  if s.configured_dsses = [] then (s, mkFailure "No DSSs configured")
  else
    match copyGate s now with
    | (s1, false) => (s1, mkFailure "Copy operation already in progress")
    | (s1, true) =>
      if !(copyParamsPresent p) then
        (s1, mkFailure "Missing required parameters: file_name, file_size, owner")
      else copyAdmit s1 now

/-- The file-directory update of `Manager.copy_complete` (line 358). -/
def setDssFiles (s : ManagerState) (dss_name file_name : String) (fi : FileInfo) :
    ManagerState :=
  { s with configured_dsses := s.configured_dsses.map (fun kv =>
      if kv.1 == dss_name then (kv.1, { kv.2 with files := dictInsert file_name fi kv.2.files })
      else kv) }

/-- `Manager.copy_complete` (`manager.py` lines 337-368).  Note that an
unknown DSS clears `copy_in_progress` before failing (line 354). -/
def copy_complete (s : ManagerState) (p : CopyCompleteParams) :
    ManagerState × Response :=
  if !s.copy_in_progress then (s, mkFailure "No copy operation in progress")
  else if !(copyCompleteParamsPresent p) then (s, mkFailure "Missing required parameters")
  else if (s.configured_dsses.lookup p.dss_name).isNone then
    ({ s with copy_in_progress := false }, mkFailure "DSS not found")
  else
    ({ setDssFiles s p.dss_name p.file_name ⟨p.file_size, p.owner⟩ with
        copy_in_progress := false },
      ⟨Status.SUCCESS, none, none⟩)

/-! ### Read handler -/

structure ReadParams where
  dss_name : String
  file_name : String
  user_name : String
deriving DecidableEq

def readParamsPresent (p : ReadParams) : Bool :=
  p.dss_name != "" && p.file_name != "" && p.user_name != ""

/-- `Manager.read_file` (`manager.py` lines 370-431). -/
def read_file (s : ManagerState) (p : ReadParams) (now : Nat) :
    ManagerState × Response :=
  if !(readParamsPresent p) then
    (s, mkFailure "Missing required parameters: dss_name, file_name, user_name")
  else
    match s.configured_dsses.lookup p.dss_name with
    | none => (s, mkFailure "DSS not found")
    | some dss =>
      match dss.files.lookup p.file_name with
      | none => (s, mkFailure "File not found on DSS")
      | some fi =>
        if fi.owner != p.user_name then
          (s, mkFailure "User is not the owner of this file")
        else
          ({ s with reads_in_progress := s.reads_in_progress ++
              [⟨p.dss_name, p.file_name, p.user_name, now⟩] },
            ⟨Status.SUCCESS, none,
              some ⟨p.dss_name, dss.n, dss.striping_unit,
                diskDetails s dss.disks, some fi.file_size⟩⟩)

/-! ### Failure / decommission completion handlers -/

/-- `Manager.recovery_complete` (`manager.py` lines 513-534).  An unknown
DSS clears `failure_in_progress` before failing (line 527). -/
def recovery_complete (s : ManagerState) (dss_name : String) :
    ManagerState × Response :=
  if dss_name == "" then (s, mkFailure "Missing required parameter: dss_name")
  else if !s.failure_in_progress then
    (s, mkFailure "No disk failure operation in progress")
  else if (s.configured_dsses.lookup dss_name).isNone then
    ({ s with failure_in_progress := false }, mkFailure "DSS not found")
  else ({ s with failure_in_progress := false }, ⟨Status.SUCCESS, none, none⟩)

/-- `Manager.decommission_complete` (`manager.py` lines 584-619).  An
unknown DSS clears `decommission_in_progress` before failing (line 598). -/
def decommission_complete (s : ManagerState) (dss_name : String) :
    ManagerState × Response :=
  if dss_name == "" then (s, mkFailure "Missing required parameter: dss_name")
  else if !s.decommission_in_progress then
    (s, mkFailure "No decommission operation in progress")
  else
    match s.configured_dsses.lookup dss_name with
    | none => ({ s with decommission_in_progress := false }, mkFailure "DSS not found")
    | some dss =>
      ({ s with
          registered_disks := s.registered_disks.map (fun kv =>
            if dss.disks.contains kv.1 then
              (kv.1, { kv.2 with state := DiskState.Free, dss_name := none })
            else kv),
          configured_dsses := s.configured_dsses.eraseP (fun kv => kv.1 == dss_name),
          decommission_in_progress := false },
        ⟨Status.SUCCESS, none, none⟩)

/-! ## C3: name and port uniqueness (corrected) -/

/-- A registration-phase request (`register-user`, `register-disk`,
`deregister-user`, `deregister-disk`). -/
inductive RegOp where
  | regUser (p : RegisterParams)
  | regDisk (p : RegisterParams)
  | deregUser (name : String)
  | deregDisk (name : String)
deriving DecidableEq

def applyRegOp (s : ManagerState) : RegOp → ManagerState
  | .regUser p => (register_user s p).1
  | .regDisk p => (register_disk s p).1
  | .deregUser nm => (deregister_user s nm).1
  | .deregDisk nm => (deregister_disk s nm).1

def applyRegOps (s : ManagerState) (ops : List RegOp) : ManagerState :=
  ops.foldl applyRegOp s

/-- All management ports bound by registered entities, users first. -/
def mPorts (s : ManagerState) : List Nat :=
  s.registered_users.map (fun kv => kv.2.m_port) ++
    s.registered_disks.map (fun kv => kv.2.m_port)

/-- All command ports bound by registered entities, users first. -/
def cPorts (s : ManagerState) : List Nat :=
  s.registered_users.map (fun kv => kv.2.c_port) ++
    s.registered_disks.map (fun kv => kv.2.c_port)

/-- Number of registered entities (users or disks) one of whose two ports
equals `q` — the claim's "entities a port is bound to". -/
def entitiesBoundTo (s : ManagerState) (q : Nat) : Nat :=
  (s.registered_users.filter
    (fun kv => kv.2.m_port == q || kv.2.c_port == q)).length +
  (s.registered_disks.filter
    (fun kv => kv.2.m_port == q || kv.2.c_port == q)).length

/-- The invariant the code actually maintains: names are unique per table,
management ports are pairwise distinct across both tables, and command
ports are pairwise distinct across both tables. -/
def RegInvariant (s : ManagerState) : Prop :=
  (s.registered_users.map Prod.fst).Nodup ∧
  (s.registered_disks.map Prod.fst).Nodup ∧
  (mPorts s).Nodup ∧ (cPorts s).Nodup

/-! ## C6: round-robin fairness -/

/-- A request touching the copy machinery: a `copy` (phase 1, at a given
time) or a `copy-complete` (phase 2). -/
inductive CopyOp where
  | copyReq (p : CopyParams) (now : Nat)
  | completeReq (p : CopyCompleteParams)
deriving DecidableEq

/-- Run a sequence of copy-phase requests against the manager, collecting
the DSS name returned by every successful `copy` admission, in order. -/
def runCopyTrace (s : ManagerState) : List CopyOp → ManagerState × List String
  | [] => (s, [])
  | .copyReq p now :: rest =>
    match (copy_file s p now).2.status, (copy_file s p now).2.data with
    | Status.SUCCESS, some d =>
      ((runCopyTrace (copy_file s p now).1 rest).1,
        d.dss_name :: (runCopyTrace (copy_file s p now).1 rest).2)
    | _, _ => runCopyTrace (copy_file s p now).1 rest
  | .completeReq cp :: rest => runCopyTrace (copy_complete s cp).1 rest

/-! ## C9: parity rotation -/

theorem get_parity_disk_index_lt (s n : Nat) (hn : 0 < n) :
    get_parity_disk_index s n < n := by
  unfold get_parity_disk_index
  omega

/-- **C9.** The parity-disk index implemented by the code equals
`n - 1 - (s mod n)`, and over any `n` consecutive stripe numbers it takes
every disk index in `{0, …, n-1}` exactly once (its image on `0..n-1` is all
of `range n`). -/
theorem parity_rotation (n : Nat) (hn : 3 ≤ n) (s : Nat) :
    get_parity_disk_index s n = n - 1 - s % n ∧
      Finset.image (fun t => get_parity_disk_index t n) (Finset.range n) =
        Finset.range n := by
  constructor
  · unfold get_parity_disk_index
    omega
  · ext k
    simp only [Finset.mem_image, Finset.mem_range]
    constructor
    · rintro ⟨t, _, rfl⟩
      exact get_parity_disk_index_lt t n (by omega)
    · intro hk
      refine ⟨n - 1 - k, by omega, ?_⟩
      unfold get_parity_disk_index
      have h1 : (n - 1 - k) % n = n - 1 - k := Nat.mod_eq_of_lt (by omega)
      omega

/-- Witness for C9 at `n = 3`, `s = 5`. -/
theorem parity_rotation_witness :
    3 ≤ 3 ∧ (get_parity_disk_index 5 3 = 3 - 1 - 5 % 3 ∧
      Finset.image (fun t => get_parity_disk_index t 3) (Finset.range 3) =
        Finset.range 3) :=
  ⟨by decide, parity_rotation 3 (by decide) 5⟩

theorem length_bxor (a b : List Nat) : (bxor a b).length = min a.length b.length :=
  List.length_zipWith ..

theorem bxor_assoc (a b c : List Nat) : bxor (bxor a b) c = bxor a (bxor b c) := by
  induction a generalizing b c with
  | nil => simp [bxor]
  | cons x a ih =>
    cases b with
    | nil => simp [bxor]
    | cons y b =>
      cases c with
      | nil => simp [bxor]
      | cons z c =>
        show (x ^^^ y ^^^ z) :: bxor (bxor a b) c = (x ^^^ (y ^^^ z)) :: bxor a (bxor b c)
        rw [Nat.xor_assoc, ih b c]

theorem bxor_comm (a b : List Nat) : bxor a b = bxor b a := by
  induction a generalizing b with
  | nil => cases b <;> simp [bxor]
  | cons x a ih =>
    cases b with
    | nil => simp [bxor]
    | cons y b =>
      show (x ^^^ y) :: bxor a b = (y ^^^ x) :: bxor b a
      rw [Nat.xor_comm, ih b]

theorem bxor_self (a : List Nat) : bxor a a = List.replicate a.length 0 := by
  induction a with
  | nil => rfl
  | cons x a ih =>
    show (x ^^^ x) :: bxor a a = List.replicate (a.length + 1) 0
    rw [Nat.xor_self, ih, List.replicate_succ]

theorem bxor_zero_right (a : List Nat) : bxor a (List.replicate a.length 0) = a := by
  induction a with
  | nil => rfl
  | cons x a ih =>
    show (x ^^^ 0) :: bxor a (List.replicate a.length 0) = x :: a
    rw [Nat.xor_zero, ih]

theorem bxor_zero_left (a : List Nat) : bxor (List.replicate a.length 0) a = a := by
  rw [bxor_comm]; exact bxor_zero_right a

theorem length_xorBlocks (U : Nat) (l : List (List Nat))
    (h : ∀ b ∈ l, b.length = U) : (xorBlocks U l).length = U := by
  induction l with
  | nil => simp [xorBlocks]
  | cons b rest ih =>
    have hb : b.length = U := h b (by simp)
    have hr := ih (fun x hx => h x (by simp [hx]))
    simp only [xorBlocks, List.foldr_cons] at *
    rw [length_bxor, hb, hr, Nat.min_self]

theorem xorBlocks_cons (U : Nat) (b : List Nat) (l : List (List Nat)) :
    xorBlocks U (b :: l) = bxor b (xorBlocks U l) := rfl

theorem foldl_bxor_eq (U : Nat) (rest : List (List Nat)) :
    ∀ b : List Nat, b.length = U → (∀ x ∈ rest, x.length = U) →
      rest.foldl bxor b = bxor b (xorBlocks U rest) := by
  induction rest with
  | nil =>
    intro b hb _
    simp only [List.foldl_nil, xorBlocks, List.foldr_nil]
    rw [← hb]; exact (bxor_zero_right b).symm
  | cons r rest ih =>
    intro b hb hx
    have hr : r.length = U := hx r (by simp)
    have hlen : (bxor b r).length = U := by rw [length_bxor, hb, hr, Nat.min_self]
    simp only [List.foldl_cons]
    rw [ih (bxor b r) hlen (fun x h => hx x (by simp [h])), xorBlocks_cons, bxor_assoc]

theorem reconstructBlock_eq (U : Nat) (l : List (List Nat))
    (hne : l ≠ []) (h : ∀ b ∈ l, b.length = U) :
    reconstructBlock l = xorBlocks U l := by
  cases l with
  | nil => exact absurd rfl hne
  | cons b rest =>
    have hb : b.length = U := h b (by simp)
    show rest.foldl bxor b = _
    rw [foldl_bxor_eq U rest b hb (fun x hx => h x (by simp [hx])), xorBlocks_cons]

theorem xorInto_eq_bxor (p b : List Nat) (h : p.length ≤ b.length) :
    xorInto p b = bxor p b := by
  unfold xorInto bxor
  rw [List.drop_eq_nil_of_le h, List.append_nil]

theorem calculate_parity_eq (U : Nat) (l : List (List Nat))
    (hne : l ≠ []) (h : ∀ b ∈ l, b.length = U) :
    calculate_parity l = xorBlocks U l := by
  cases l with
  | nil => exact absurd rfl hne
  | cons b rest =>
    have hb : b.length = U := h b (by simp)
    show rest.foldl xorInto b = _
    have key : ∀ (r2 : List (List Nat)) (b2 : List Nat), b2.length = U →
        (∀ x ∈ r2, x.length = U) → r2.foldl xorInto b2 = r2.foldl bxor b2 := by
      intro r2
      induction r2 with
      | nil => intro b2 _ _; rfl
      | cons r r2 ih =>
        intro b2 hb2 hx
        have hr : r.length = U := hx r (by simp)
        have heq : xorInto b2 r = bxor b2 r :=
          xorInto_eq_bxor b2 r (by rw [hb2, hr])
        have hlen : (bxor b2 r).length = U := by rw [length_bxor, hb2, hr, Nat.min_self]
        simp only [List.foldl_cons, heq]
        exact ih (bxor b2 r) hlen (fun x hh => hx x (by simp [hh]))
    rw [key rest b hb (fun x hx => h x (by simp [hx])),
      foldl_bxor_eq U rest b hb (fun x hx => h x (by simp [hx])), xorBlocks_cons]

theorem erase_get_xor (U : Nat) (l : List (List Nat)) :
    ∀ k : Nat, k < l.length → (∀ b ∈ l, b.length = U) →
      bxor (l.getD k []) (xorBlocks U (l.eraseIdx k)) = xorBlocks U l := by
  induction l with
  | nil => intro k hk; simp at hk
  | cons b rest ih =>
    intro k hk h
    cases k with
    | zero => simp [List.eraseIdx_cons_zero, xorBlocks_cons, List.getD]
    | succ k =>
      have hk' : k < rest.length := by simpa using hk
      have h' : ∀ x ∈ rest, x.length = U := fun x hx => h x (by simp [hx])
      have ihk := ih k hk' h'
      simp only [List.eraseIdx_cons_succ, xorBlocks_cons, List.getD_cons_succ]
      calc bxor (rest.getD k []) (bxor b (xorBlocks U (rest.eraseIdx k)))
          = bxor (bxor (rest.getD k []) b) (xorBlocks U (rest.eraseIdx k)) :=
            (bxor_assoc ..).symm
        _ = bxor (bxor b (rest.getD k [])) (xorBlocks U (rest.eraseIdx k)) := by
            rw [bxor_comm (rest.getD k []) b]
        _ = bxor b (bxor (rest.getD k []) (xorBlocks U (rest.eraseIdx k))) :=
            bxor_assoc ..
        _ = bxor b (xorBlocks U rest) := by rw [ihk]

theorem bxor_eq_zero_cancel (U : Nat) (a x : List Nat)
    (ha : a.length = U) (hx : x.length = U)
    (h : bxor a x = List.replicate U 0) : x = a := by
  have h1 : bxor a (bxor a x) = x := by
    rw [← bxor_assoc, bxor_self, ha, ← hx, bxor_zero_left]
  have h2 : bxor a (bxor a x) = a := by
    rw [h, ← ha, bxor_zero_right]
  rw [h1] at h2; exact h2

theorem bxor_right_cancel (U : Nat) (a a2 x : List Nat)
    (ha : a.length = U) (ha2 : a2.length = U) (hx : x.length = U)
    (h : bxor a x = bxor a2 x) : a = a2 := by
  have key : ∀ c : List Nat, c.length = U → bxor (bxor c x) x = c := by
    intro c hc
    rw [bxor_assoc, bxor_self, hx, ← hc, bxor_zero_right]
  have := key a ha
  rw [h, key a2 ha2] at this
  exact this.symm

/-! ## C2: single-disk tolerance -/

/-- **C2.** For a stripe of `n` blocks, all of length `U`, in which some
block equals the code's parity (`calculate_parity`) of the other `n-1`
blocks, the user's recovery fold (`reconstructBlock`, the XOR of the `n-1`
surviving blocks) reproduces the block of any failed disk `k`; the tag the
recovery writes is `"parity"` exactly when `k` is the stripe-0 parity
index. -/
theorem single_disk_tolerance (n U k : Nat) (stripe : List (List Nat))
    (hn : 3 ≤ n) (hlen : stripe.length = n) (hU : ∀ b ∈ stripe, b.length = U)
    (hpar : ∃ j, j < n ∧ stripe.getD j [] = calculate_parity (stripe.eraseIdx j))
    (hk : k < n) :
    reconstructBlock (stripe.eraseIdx k) = stripe.getD k [] ∧
      (recoveryBlockType k n = "parity" ↔ k = get_parity_disk_index 0 n) := by
  have hUe : ∀ i : Nat, ∀ b ∈ stripe.eraseIdx i, b.length = U :=
    fun i b hb => hU b (List.mem_of_mem_eraseIdx hb)
  have hlen_erase : ∀ i : Nat, i < n → (stripe.eraseIdx i).length = n - 1 := by
    intro i hi
    rw [List.length_eraseIdx, hlen, if_pos hi]
  have hgetlen : ∀ i : Nat, i < n → (stripe.getD i []).length = U := by
    intro i hi
    have hi' : i < stripe.length := by omega
    rw [List.getD_eq_getElem stripe [] hi']
    exact hU _ (List.getElem_mem hi')
  -- the total XOR of the stripe is the zero block
  have htotal : xorBlocks U stripe = List.replicate U 0 := by
    obtain ⟨j, hj, hjeq⟩ := hpar
    have hne : stripe.eraseIdx j ≠ [] := by
      rw [← List.length_pos, hlen_erase j hj]; omega
    have h1 : calculate_parity (stripe.eraseIdx j) = xorBlocks U (stripe.eraseIdx j) :=
      calculate_parity_eq U _ hne (hUe j)
    have h2 := erase_get_xor U stripe j (by omega) hU
    rw [hjeq, h1] at h2
    have hXlen : (xorBlocks U (stripe.eraseIdx j)).length = U :=
      length_xorBlocks U _ (hUe j)
    rw [bxor_self, hXlen] at h2
    exact h2.symm
  constructor
  · have h3 := erase_get_xor U stripe k (by omega) hU
    rw [htotal] at h3
    have hXlen : (xorBlocks U (stripe.eraseIdx k)).length = U :=
      length_xorBlocks U _ (hUe k)
    have h4 : xorBlocks U (stripe.eraseIdx k) = stripe.getD k [] :=
      bxor_eq_zero_cancel U _ _ (hgetlen k hk) hXlen h3
    have hne : stripe.eraseIdx k ≠ [] := by
      rw [← List.length_pos, hlen_erase k hk]; omega
    rw [reconstructBlock_eq U _ hne (hUe k), h4]
  · by_cases h : k = get_parity_disk_index 0 n <;> simp [recoveryBlockType, h]

/-- Witness for C2: `n = 3`, `U = 1`, stripe `[[1],[2],[3]]`
(`[3]` is the XOR of `[1]` and `[2]`), failed disk `k = 1`. -/
theorem single_disk_tolerance_witness :
    reconstructBlock (([[1],[2],[3]] : List (List Nat)).eraseIdx 1) =
        ([[1],[2],[3]] : List (List Nat)).getD 1 [] ∧
      (recoveryBlockType 1 3 = "parity" ↔ 1 = get_parity_disk_index 0 3) :=
  single_disk_tolerance 3 1 1 [[1],[2],[3]] (by decide) (by decide) (by decide)
    ⟨2, by decide, by decide⟩ (by decide)

/-! ## C8: parity verification and single-corruption detection -/

theorem nat_xor_shift_ne (x b : Nat) : x ^^^ (1 <<< b) ≠ x := by
  intro h
  have h2 : x ^^^ (x ^^^ 1 <<< b) = 0 := by rw [h, Nat.xor_self]
  rw [← Nat.xor_assoc, Nat.xor_self, Nat.zero_xor] at h2
  simp [Nat.one_shiftLeft] at h2

theorem set_ne_of_getElem_ne (l : List Nat) (i v : Nat) (hi : i < l.length)
    (hv : v ≠ l[i]) : l.set i v ≠ l := by
  intro h
  have := congrArg (fun t => t[i]?) h
  simp only [List.getElem?_set, if_pos rfl, if_pos hi, List.getElem?_eq_getElem hi] at this
  exact hv (Option.some_injective _ this)

theorem eraseIdx_set_same (l : List (List Nat)) :
    ∀ (i : Nat) (a : List Nat), (l.set i a).eraseIdx i = l.eraseIdx i := by
  induction l with
  | nil => intro i a; rfl
  | cons b rest ih =>
    intro i a
    cases i with
    | zero => rfl
    | succ i => simp only [List.set_cons_succ, List.eraseIdx_cons_succ, ih i a]

theorem getD_set_same (l : List Nat) (i v : Nat) (hi : i < l.length) :
    (l.set i v).getD i 0 = v := by
  rw [List.getD_eq_getElem?_getD, List.getElem?_set, if_pos rfl, if_pos hi]
  rfl

theorem inject_changes (x : List Nat) (q b : Nat) (hx : x ≠ []) (hq : q < x.length) :
    inject_single_bit_error x q b ≠ x := by
  unfold inject_single_bit_error
  rw [if_neg hx]
  apply set_ne_of_getElem_ne x q _ hq
  rw [List.getD_eq_getElem x 0 hq]
  exact nat_xor_shift_ne x[q] b

/-- **C8.** `verify_parity` is true iff the recomputed parity equals the
stored parity block; on a stripe of non-empty equal-length data blocks whose
parity block is `calculate_parity` of the data, verification passes, and
after flipping a single bit (via `inject_single_bit_error`) of either the
parity block or any one data block, verification fails. -/
theorem verify_detects (data : List (List Nat)) (U j q b : Nat)
    (hne : data ≠ []) (hU : ∀ x ∈ data, x.length = U) (h0 : 0 < U)
    (hq : q < U) (hj : j < data.length) :
    (∀ d pb, verify_parity d pb = true ↔ calculate_parity d = pb) ∧
    verify_parity data (calculate_parity data) = true ∧
    verify_parity data (inject_single_bit_error (calculate_parity data) q b) = false ∧
    verify_parity (data.set j (inject_single_bit_error (data.getD j []) q b))
      (calculate_parity data) = false := by
  have hiff : ∀ (d : List (List Nat)) (pb : List Nat),
      verify_parity d pb = true ↔ calculate_parity d = pb := by
    intro d pb
    unfold verify_parity
    exact beq_iff_eq ..
  have hP : calculate_parity data = xorBlocks U data := calculate_parity_eq U data hne hU
  have hPlen : (calculate_parity data).length = U := by rw [hP]; exact length_xorBlocks U data hU
  have hPne : calculate_parity data ≠ [] := by
    rw [← List.length_pos, hPlen]; exact h0
  refine ⟨hiff, by unfold verify_parity; exact beq_self_eq_true _, ?_, ?_⟩
  · rw [show (verify_parity data
        (inject_single_bit_error (calculate_parity data) q b) = false) =
        ((calculate_parity data ==
          inject_single_bit_error (calculate_parity data) q b) = false) from rfl,
      beq_eq_false_iff_ne]
    exact fun h => inject_changes _ q b hPne (by omega) h.symm
  · set dj := data.getD j [] with hdj
    have hjlen : dj.length = U := by
      rw [hdj, List.getD_eq_getElem data [] hj]
      exact hU _ (List.getElem_mem hj)
    have hjne : dj ≠ [] := by rw [← List.length_pos, hjlen]; exact h0
    set dj2 := inject_single_bit_error dj q b with hdj2
    have hdj2len : dj2.length = U := by
      rw [hdj2]
      unfold inject_single_bit_error
      rw [if_neg hjne, List.length_set]
      exact hjlen
    have hdj2ne : dj2 ≠ dj := inject_changes dj q b hjne (by omega)
    set data2 := data.set j dj2 with hdata2
    have hd2len : data2.length = data.length := List.length_set ..
    have hd2ne : data2 ≠ [] := by
      rw [← List.length_pos, hd2len, List.length_pos]; exact hne
    have hU2 : ∀ x ∈ data2, x.length = U := by
      intro x hx
      rcases List.mem_or_eq_of_mem_set hx with h | h
      · exact hU x h
      · rw [h]; exact hdj2len
    have hP2 : calculate_parity data2 = xorBlocks U data2 :=
      calculate_parity_eq U data2 hd2ne hU2
    -- both parities factor through the XOR of the unmodified blocks
    have hget2 : data2.getD j [] = dj2 := by
      rw [hdata2, List.getD_eq_getElem?_getD, List.getElem?_set, if_pos rfl, if_pos hj]
      rfl
    have he1 := erase_get_xor U data2 j (by omega) hU2
    have he2 := erase_get_xor U data j hj hU
    rw [hget2, hdata2, eraseIdx_set_same data j dj2] at he1
    set X := xorBlocks U (data.eraseIdx j) with hX
    have hXlen : X.length = U :=
      length_xorBlocks U _ (fun x hx => hU x (List.mem_of_mem_eraseIdx hx))
    rw [show (verify_parity data2 (calculate_parity data) = false) =
        ((calculate_parity data2 == calculate_parity data) = false) from rfl,
      beq_eq_false_iff_ne]
    intro hcontra
    rw [hP2, hP, ← he1, ← he2] at hcontra
    exact hdj2ne (bxor_right_cancel U dj2 dj X hdj2len hjlen hXlen hcontra)

/-- Witness for C8: two data blocks `[5]`, `[9]`, `U = 1`, flipping bit 0 of
byte 0 of data block `j = 1`. -/
theorem verify_detects_witness :
    (∀ d pb, verify_parity d pb = true ↔ calculate_parity d = pb) ∧
    verify_parity [[5],[9]] (calculate_parity [[5],[9]]) = true ∧
    verify_parity [[5],[9]]
      (inject_single_bit_error (calculate_parity [[5],[9]]) 0 0) = false ∧
    verify_parity (([[5],[9]] : List (List Nat)).set 1
        (inject_single_bit_error (([[5],[9]] : List (List Nat)).getD 1 []) 0 0))
      (calculate_parity [[5],[9]]) = false :=
  verify_detects [[5],[9]] 1 1 0 0 (by decide) (by decide) (by decide) (by decide)
    (by decide)

theorem pad_block_eq_padTo (x : List Nat) (U : Nat) (h : x.length ≤ U) :
    pad_block x U = padTo x U := by
  unfold pad_block padTo
  by_cases he : x.length ≥ U
  · rw [if_pos he, List.take_of_length_le h,
      Nat.le_antisymm h he, Nat.sub_self, List.replicate_zero, List.append_nil]
  · rw [if_neg he]

theorem flatten_chunks (c : Nat) (_hc : 0 < c) :
    ∀ (k : Nat) (L : List Nat), L.length ≤ k * c →
      ((List.range k).map (fun i => padTo ((L.drop (i * c)).take c) c)).flatten =
        L ++ List.replicate (k * c - L.length) 0 := by
  intro k
  induction k with
  | zero =>
    intro L h
    have hL : L = [] := List.eq_nil_of_length_eq_zero (by simpa using h)
    subst hL
    simp
  | succ k ih =>
    intro L h
    have hkc : (k + 1) * c = k * c + c := by rw [Nat.add_mul, Nat.one_mul]
    rw [List.range_succ_eq_map, List.map_cons, List.map_map, List.flatten_cons]
    have hmap : List.map ((fun i => padTo ((L.drop (i * c)).take c) c) ∘ Nat.succ)
        (List.range k) =
        List.map (fun i => padTo (((L.drop c).drop (i * c)).take c) c)
          (List.range k) := by
      apply List.map_congr_left
      intro i _
      simp only [Function.comp_apply]
      rw [List.drop_drop, Nat.succ_mul]
      congr 3
      omega
    rw [hmap, ih (L.drop c) (by rw [List.length_drop]; omega)]
    rw [Nat.zero_mul, List.drop_zero, List.length_drop]
    by_cases hlc : L.length ≤ c
    · rw [List.take_of_length_le hlc, List.drop_eq_nil_of_le hlc]
      simp only [List.nil_append]
      unfold padTo
      rw [List.append_assoc, ← List.replicate_add]
      congr 2
      omega
    · push_neg at hlc
      have htl : (L.take c).length = c := by
        rw [List.length_take]
        omega
      have hpad : padTo (L.take c) c = L.take c := by
        unfold padTo
        rw [htl, Nat.sub_self, List.replicate_zero, List.append_nil]
      rw [hpad, ← List.append_assoc, List.take_append_drop]
      congr 2
      omega

theorem le_stripe_count_mul (F c : Nat) (hc : 0 < c) :
    F ≤ ((F + c - 1) / c) * c := by
  have hd := Nat.div_add_mod (F + c - 1) c
  have hm : (F + c - 1) % c < c := Nat.mod_lt _ hc
  have hcomm : c * ((F + c - 1) / c) = ((F + c - 1) / c) * c := Nat.mul_comm ..
  omega

/-! ### Build / read stripe lemmas -/

theorem buildStripeGo_skip (par : List Nat) (p : Nat) :
    ∀ (k j : Nat) (ds : List (List Nat)), p < j → ds.length = k →
      buildStripeGo par p k j ds = ds := by
  intro k
  induction k with
  | zero =>
    intro j ds _ hlen
    rw [List.eq_nil_of_length_eq_zero hlen]
    rfl
  | succ k ih =>
    intro j ds hj hlen
    cases ds with
    | nil => simp at hlen
    | cons d rest =>
      unfold buildStripeGo
      rw [if_neg (by omega)]
      simp only [List.headD_cons, List.tail_cons]
      rw [ih (j + 1) rest (by omega) (by simpa using hlen)]

theorem buildStripeGo_eraseIdx (par : List Nat) (p : Nat) :
    ∀ (k j : Nat) (ds : List (List Nat)), j ≤ p → p < j + k → ds.length = k - 1 →
      (buildStripeGo par p k j ds).eraseIdx (p - j) = ds := by
  intro k
  induction k with
  | zero => intro j ds hj hk; omega
  | succ k ih =>
    intro j ds hj hk hlen
    by_cases hjp : j = p
    · subst hjp
      unfold buildStripeGo
      rw [if_pos rfl, Nat.sub_self, List.eraseIdx_cons_zero]
      exact buildStripeGo_skip par j k (j + 1) ds (by omega) (by omega)
    · have hjlt : j < p := by omega
      have hk1 : 1 ≤ k := by omega
      cases ds with
      | nil => simp at hlen; omega
      | cons d rest =>
        unfold buildStripeGo
        rw [if_neg hjp]
        simp only [List.headD_cons, List.tail_cons]
        have hsub : p - j = (p - (j + 1)) + 1 := by omega
        rw [hsub, List.eraseIdx_cons_succ,
          ih (j + 1) rest (by omega) (by omega) (by simp at hlen; omega)]

theorem buildStripeGo_getElem (par : List Nat) (p : Nat) :
    ∀ (k j : Nat) (ds : List (List Nat)), j ≤ p → p < j + k →
      (buildStripeGo par p k j ds)[p - j]? = some par := by
  intro k
  induction k with
  | zero => intro j ds hj hk; omega
  | succ k ih =>
    intro j ds hj hk
    by_cases hjp : j = p
    · subst hjp
      unfold buildStripeGo
      rw [if_pos rfl, Nat.sub_self, List.getElem?_cons_zero]
    · unfold buildStripeGo
      rw [if_neg hjp]
      have hsub : p - j = (p - (j + 1)) + 1 := by omega
      by_cases hjp2 : j = p
      · omega
      · rw [hsub]
        cases hcase : decide (j = p) <;>
          simp only [List.getElem?_cons_succ] <;>
          exact ih (j + 1) _ (by omega) (by omega)

theorem readStripe_copyStripe (B : List Nat) (n U s : Nat) (hn : 1 ≤ n) :
    readStripe (copyStripe B n U s) s n =
      some (stripeDataBlocks B n U s).flatten := by
  have hp : get_parity_disk_index s n < n := get_parity_disk_index_lt s n (by omega)
  have hdl : (stripeDataBlocks B n U s).length = n - 1 := by
    unfold stripeDataBlocks
    rw [List.length_map, List.length_range]
  have hget := buildStripeGo_getElem
    (calculate_parity (stripeDataBlocks B n U s)) (get_parity_disk_index s n)
    n 0 (stripeDataBlocks B n U s) (by omega) (by omega)
  rw [Nat.sub_zero] at hget
  have herase := buildStripeGo_eraseIdx
    (calculate_parity (stripeDataBlocks B n U s)) (get_parity_disk_index s n)
    n 0 (stripeDataBlocks B n U s) (by omega) (by omega) (by omega)
  rw [Nat.sub_zero] at herase
  unfold readStripe copyStripe buildStripe
  simp only [hget, herase, verify_parity, beq_self_eq_true, if_true]

theorem readStripesFrom_copy (B : List Nat) (n U : Nat) (hn : 1 ≤ n) :
    ∀ (k s0 : Nat),
      readStripesFrom n s0 ((List.range' s0 k).map (copyStripe B n U)) =
        some (((List.range' s0 k).map
          (fun s => (stripeDataBlocks B n U s).flatten)).flatten) := by
  intro k
  induction k with
  | zero => intro s0; rfl
  | succ k ih =>
    intro s0
    rw [List.range'_succ]
    simp only [List.map_cons, List.flatten_cons]
    unfold readStripesFrom
    rw [readStripe_copyStripe B n U s0 hn, ih (s0 + 1)]

theorem stripeData_length_le (B : List Nat) (n U s : Nat) :
    (stripeData B n U s).length ≤ (n - 1) * U := by
  unfold stripeData
  rw [List.length_take]
  exact Nat.min_le_left ..

theorem stripeDataBlocks_flatten (B : List Nat) (n U s : Nat) (hU : 0 < U) :
    (stripeDataBlocks B n U s).flatten =
      padTo (stripeData B n U s) ((n - 1) * U) := by
  have hL := stripeData_length_le B n U s
  unfold stripeDataBlocks
  have hcong : (List.range (n - 1)).map
      (fun i => pad_block (((stripeData B n U s).drop (i * U)).take U) U) =
      (List.range (n - 1)).map
        (fun i => padTo (((stripeData B n U s).drop (i * U)).take U) U) := by
    apply List.map_congr_left
    intro i _
    apply pad_block_eq_padTo
    rw [List.length_take]
    exact Nat.min_le_left ..
  rw [hcong, flatten_chunks U hU (n - 1) (stripeData B n U s) hL]
  rfl

/-! ## C1: parity round trip -/

/-- **C1.** For every `n ≥ 3`, valid striping unit `U`, and byte string `B`:
the copy pipeline (stripe, pad, parity, rotated placement) followed by the
read pipeline (parity removal, in-order concatenation, truncation to the
file size) returns exactly `B`. -/
theorem parity_round_trip (n U : Nat) (B : List Nat) (hn : 3 ≤ n)
    (hU : validStripingUnit U = true) :
    readPipeline (copyStripes B n U) n B.length = some B := by
  have hU1 : 0 < U := by
    unfold validStripingUnit at hU
    simp only [Bool.and_eq_true, decide_eq_true_eq, beq_iff_eq] at hU
    omega
  have hc : 0 < (n - 1) * U := by
    apply Nat.mul_pos (by omega) hU1
  have hSc : B.length ≤ calculate_stripe_count B.length n U * ((n - 1) * U) :=
    le_stripe_count_mul B.length ((n - 1) * U) hc
  unfold readPipeline copyStripes
  rw [List.range_eq_range',
    readStripesFrom_copy B n U (by omega) (calculate_stripe_count B.length n U) 0]
  simp only [Option.map_some']
  congr 1
  have hcong : (List.range' 0 (calculate_stripe_count B.length n U)).map
      (fun s => (stripeDataBlocks B n U s).flatten) =
      (List.range' 0 (calculate_stripe_count B.length n U)).map
        (fun s => padTo ((B.drop (s * ((n - 1) * U))).take ((n - 1) * U))
          ((n - 1) * U)) := by
    apply List.map_congr_left
    intro s _
    rw [stripeDataBlocks_flatten B n U s hU1]
    rfl
  rw [hcong, ← List.range_eq_range',
    flatten_chunks ((n - 1) * U) hc (calculate_stripe_count B.length n U) B hSc]
  exact List.take_left B _

/-- Witness for C1: `n = 3`, `U = 128`, `B = [17, 42, 255]`. -/
theorem parity_round_trip_witness :
    3 ≤ 3 ∧ validStripingUnit 128 = true ∧
      readPipeline (copyStripes [17, 42, 255] 3 128) 3 3 = some [17, 42, 255] :=
  ⟨by decide, by decide,
    parity_round_trip 3 128 [17, 42, 255] (by decide) (by decide)⟩

/-! ## C10: zero-size files are unrepresentable -/

/-- **C10.** A `copy` request with `file_size = 0` always fails (the
presence check treats the integer 0 as an absent field), and when it
reaches that check (DSSs configured, section free) the failure message is
the missing-parameters one; a `copy-complete` with `file_size = 0` fails
and leaves the manager state untouched, so a zero-byte file is never
admitted nor recorded. -/
theorem zero_size_unrepresentable (s : ManagerState) (p : CopyParams)
    (cp : CopyCompleteParams) (now : Nat)
    (h0 : p.file_size = 0) (h0c : cp.file_size = 0) :
    (copy_file s p now).2.status = Status.FAILURE ∧
    (s.configured_dsses ≠ [] → s.copy_in_progress = false →
      (copy_file s p now).2.message =
        some "Missing required parameters: file_name, file_size, owner") ∧
    (copy_complete s cp).2.status = Status.FAILURE ∧
    (copy_complete s cp).1 = s := by
  have hpres : copyParamsPresent p = false := by
    simp [copyParamsPresent, h0]
  have hcpres : copyCompleteParamsPresent cp = false := by
    simp [copyCompleteParamsPresent, h0c]
  refine ⟨?_, ?_, ?_, ?_⟩
  · unfold copy_file
    by_cases hd : s.configured_dsses = []
    · simp [hd, mkFailure]
    · rw [if_neg hd]
      rcases hg : copyGate s now with ⟨s1, b⟩
      cases b <;> simp [hpres, mkFailure, copyAdmit]
  · intro hd hcp
    unfold copy_file
    rw [if_neg hd]
    have hg : copyGate s now = (s, true) := by simp [copyGate, hcp]
    rw [hg]
    simp [hpres, mkFailure]
  · by_cases hcip : s.copy_in_progress <;>
      simp [copy_complete, hcip, hcpres, mkFailure]
  · by_cases hcip : s.copy_in_progress <;>
      simp [copy_complete, hcip, hcpres, mkFailure]

/-- Witness for C10 on a state with one DSS and a free copy section. -/
theorem zero_size_unrepresentable_witness :
    (copy_file ⟨[], [], [("A", ⟨3, 128, [], [], "u1"⟩)], false, [], false, false,
        none, none⟩ ⟨"f", 0, "u1"⟩ 5).2.status = Status.FAILURE ∧
    ((⟨[], [], [("A", ⟨3, 128, [], [], "u1"⟩)], false, [], false, false,
        none, none⟩ : ManagerState).configured_dsses ≠ [] →
      (⟨[], [], [("A", ⟨3, 128, [], [], "u1"⟩)], false, [], false, false,
        none, none⟩ : ManagerState).copy_in_progress = false →
      (copy_file ⟨[], [], [("A", ⟨3, 128, [], [], "u1"⟩)], false, [], false, false,
        none, none⟩ ⟨"f", 0, "u1"⟩ 5).2.message =
        some "Missing required parameters: file_name, file_size, owner") ∧
    (copy_complete ⟨[], [], [("A", ⟨3, 128, [], [], "u1"⟩)], false, [], false, false,
        none, none⟩ ⟨"f", 0, "u1", "A"⟩).2.status = Status.FAILURE ∧
    (copy_complete ⟨[], [], [("A", ⟨3, 128, [], [], "u1"⟩)], false, [], false, false,
        none, none⟩ ⟨"f", 0, "u1", "A"⟩).1 =
      ⟨[], [], [("A", ⟨3, 128, [], [], "u1"⟩)], false, [], false, false, none, none⟩ :=
  zero_size_unrepresentable _ _ _ 5 (by decide) (by decide)

/-! ## C7: read ownership -/

/-- **C7.** `read` returns SUCCESS exactly when all three parameters are
present, the DSS exists, the file exists on it, and the requesting user is
the file's recorded owner; whenever the user differs from the owner the
request fails (registration of the user is irrelevant — the handler never
consults the user registry); on success exactly one record is appended to
the reads-in-progress list, and on failure the state is unchanged. -/
theorem read_ownership (s : ManagerState) (p : ReadParams) (now : Nat) :
    ((read_file s p now).2.status = Status.SUCCESS ↔
      readParamsPresent p = true ∧
      ∃ dss, s.configured_dsses.lookup p.dss_name = some dss ∧
        ∃ fi, dss.files.lookup p.file_name = some fi ∧ fi.owner = p.user_name) ∧
    (∀ dss fi, s.configured_dsses.lookup p.dss_name = some dss →
      dss.files.lookup p.file_name = some fi → fi.owner ≠ p.user_name →
      (read_file s p now).2.status = Status.FAILURE) ∧
    ((read_file s p now).2.status = Status.SUCCESS →
      (read_file s p now).1 = { s with reads_in_progress :=
        s.reads_in_progress ++ [⟨p.dss_name, p.file_name, p.user_name, now⟩] }) ∧
    ((read_file s p now).2.status = Status.FAILURE →
      (read_file s p now).1 = s) := by
  unfold read_file
  cases hp : readParamsPresent p with
  | false => simp [mkFailure]
  | true =>
    cases hdss : s.configured_dsses.lookup p.dss_name with
    | none => simp [hdss, mkFailure]
    | some dss =>
      cases hfi : dss.files.lookup p.file_name with
      | none => simp [hdss, hfi, mkFailure]
      | some fi =>
        cases ho : fi.owner == p.user_name with
        | false =>
          simp only [hdss, hfi, Bool.not_eq_true, bne, ho, Bool.not_false, if_true]
          simp [mkFailure]
          intro g hg hc
          rw [hfi] at hg
          injection hg with hg
          subst hg
          rw [hc] at ho
          simp at ho
        | true =>
          have ho' : fi.owner = p.user_name := by
            have h2 := ho
            rwa [beq_iff_eq] at h2
          simp only [hdss, hfi, bne, ho, Bool.not_true, if_false]
          simp [mkFailure, ho']
          refine ⟨⟨fi, hfi, ho'⟩, ?_⟩
          intro d2 f2 hd hf
          subst hd
          rw [hfi] at hf
          injection hf with hf
          rw [← hf]
          exact ho'

/-- Witness for C7: a DSS `A` holding file `f` owned by `u1`, read by the
non-owner `u2`. -/
theorem read_ownership_witness :
    ((read_file ⟨[], [], [("A", ⟨3, 128, [], [("f", ⟨100, "u1"⟩)], "u1"⟩)],
        false, [], false, false, none, none⟩ ⟨"A", "f", "u2"⟩ 7).2.status =
        Status.SUCCESS ↔
      readParamsPresent ⟨"A", "f", "u2"⟩ = true ∧
      ∃ dss, (⟨[], [], [("A", ⟨3, 128, [], [("f", ⟨100, "u1"⟩)], "u1"⟩)],
          false, [], false, false, none, none⟩ :
            ManagerState).configured_dsses.lookup "A" = some dss ∧
        ∃ fi, dss.files.lookup "f" = some fi ∧ fi.owner = "u2") ∧
    (∀ dss fi, (⟨[], [], [("A", ⟨3, 128, [], [("f", ⟨100, "u1"⟩)], "u1"⟩)],
        false, [], false, false, none, none⟩ :
          ManagerState).configured_dsses.lookup "A" = some dss →
      dss.files.lookup "f" = some fi → fi.owner ≠ "u2" →
      (read_file ⟨[], [], [("A", ⟨3, 128, [], [("f", ⟨100, "u1"⟩)], "u1"⟩)],
        false, [], false, false, none, none⟩ ⟨"A", "f", "u2"⟩ 7).2.status =
        Status.FAILURE) ∧
    ((read_file ⟨[], [], [("A", ⟨3, 128, [], [("f", ⟨100, "u1"⟩)], "u1"⟩)],
        false, [], false, false, none, none⟩ ⟨"A", "f", "u2"⟩ 7).2.status =
        Status.SUCCESS →
      (read_file ⟨[], [], [("A", ⟨3, 128, [], [("f", ⟨100, "u1"⟩)], "u1"⟩)],
        false, [], false, false, none, none⟩ ⟨"A", "f", "u2"⟩ 7).1 =
        { (⟨[], [], [("A", ⟨3, 128, [], [("f", ⟨100, "u1"⟩)], "u1"⟩)],
          false, [], false, false, none, none⟩ : ManagerState) with
            reads_in_progress := [] ++ [⟨"A", "f", "u2", 7⟩] }) ∧
    ((read_file ⟨[], [], [("A", ⟨3, 128, [], [("f", ⟨100, "u1"⟩)], "u1"⟩)],
        false, [], false, false, none, none⟩ ⟨"A", "f", "u2"⟩ 7).2.status =
        Status.FAILURE →
      (read_file ⟨[], [], [("A", ⟨3, 128, [], [("f", ⟨100, "u1"⟩)], "u1"⟩)],
        false, [], false, false, none, none⟩ ⟨"A", "f", "u2"⟩ 7).1 =
        ⟨[], [], [("A", ⟨3, 128, [], [("f", ⟨100, "u1"⟩)], "u1"⟩)],
          false, [], false, false, none, none⟩) :=
  read_ownership _ ⟨"A", "f", "u2"⟩ 7

/-! ## C5: validation-error atomicity (corrected) -/

/-- Counterexample for C5 as stated: with the copy section held, a
`copy-complete` naming an unknown DSS returns a validation FAILURE
("DSS not found") yet mutates the state — it clears `copy_in_progress`. -/
theorem validation_atomicity_cx :
    (copy_complete ⟨[], [], [("A", ⟨3, 128, [], [], "u1"⟩)], true, [], false,
        false, some 0, none⟩ ⟨"f", 100, "u1", "B"⟩).2.status = Status.FAILURE ∧
    (copy_complete ⟨[], [], [("A", ⟨3, 128, [], [], "u1"⟩)], true, [], false,
        false, some 0, none⟩ ⟨"f", 100, "u1", "B"⟩).2.message =
      some "DSS not found" ∧
    (copy_complete ⟨[], [], [("A", ⟨3, 128, [], [], "u1"⟩)], true, [], false,
        false, some 0, none⟩ ⟨"f", 100, "u1", "B"⟩).1 ≠
      ⟨[], [], [("A", ⟨3, 128, [], [], "u1"⟩)], true, [], false,
        false, some 0, none⟩ := by
  decide

/-- **C5 (amended).** Whenever `copy-complete`, `recovery-complete`, or
`decommission-complete` returns FAILURE, the manager state is unchanged —
except that a request naming an unknown DSS while its section is held
clears the corresponding critical-section flag (changing nothing else)
before returning FAILURE "DSS not found". -/
theorem validation_failure_state (s : ManagerState) (cp : CopyCompleteParams)
    (d1 d2 : String) :
    ((copy_complete s cp).2.status = Status.FAILURE →
      (copy_complete s cp).1 = s ∨
        ((copy_complete s cp).1 = { s with copy_in_progress := false } ∧
          (copy_complete s cp).2.message = some "DSS not found")) ∧
    ((recovery_complete s d1).2.status = Status.FAILURE →
      (recovery_complete s d1).1 = s ∨
        ((recovery_complete s d1).1 = { s with failure_in_progress := false } ∧
          (recovery_complete s d1).2.message = some "DSS not found")) ∧
    ((decommission_complete s d2).2.status = Status.FAILURE →
      (decommission_complete s d2).1 = s ∨
        ((decommission_complete s d2).1 =
            { s with decommission_in_progress := false } ∧
          (decommission_complete s d2).2.message = some "DSS not found")) := by
  refine ⟨?_, ?_, ?_⟩
  · unfold copy_complete
    cases hcip : s.copy_in_progress with
    | false => intro _; left; rfl
    | true =>
      cases hpar : copyCompleteParamsPresent cp with
      | false => intro _; left; rfl
      | true =>
        cases hdss : s.configured_dsses.lookup cp.dss_name with
        | none => intro _; right; simp [hdss, mkFailure]
        | some dss => simp [hdss, mkFailure]
  · unfold recovery_complete
    cases hd : d1 == "" with
    | true => intro _; left; simp [hd]
    | false =>
      cases hfip : s.failure_in_progress with
      | false => intro _; left; simp [hd, hfip]
      | true =>
        cases hdss : s.configured_dsses.lookup d1 with
        | none => intro _; right; simp [hd, hfip, hdss, mkFailure]
        | some dss => simp [hd, hfip, hdss, mkFailure]
  · unfold decommission_complete
    cases hd : d2 == "" with
    | true => intro _; left; simp [hd]
    | false =>
      cases hdip : s.decommission_in_progress with
      | false => intro _; left; simp [hd, hdip]
      | true =>
        cases hdss : s.configured_dsses.lookup d2 with
        | none => intro _; right; simp [hd, hdip, hdss, mkFailure]
        | some dss => simp [hd, hdip, hdss, mkFailure]

/-- Witness for C5's amended theorem, at a concrete failing request. -/
theorem validation_failure_state_witness :
    (copy_complete initialState ⟨"f", 1, "u", "A"⟩).1 = initialState ∨
      ((copy_complete initialState ⟨"f", 1, "u", "A"⟩).1 =
          { initialState with copy_in_progress := false } ∧
        (copy_complete initialState ⟨"f", 1, "u", "A"⟩).2.message =
          some "DSS not found") :=
  (validation_failure_state initialState ⟨"f", 1, "u", "A"⟩ "A" "A").1 (by decide)

/-! ## C4: copy mutual exclusion with the 60-second override -/

/-- **C4.** While the copy section is held (acquired at time `t`, no
`copy-complete` processed), a further `copy` at time `now ≤ t + 60` fails
with the in-progress message and changes nothing; at `now > t + 60` the
manager unilaterally releases the stale section and admits the request
(SUCCESS, section re-acquired at `now`); and after a successful
`copy-complete` the very next valid `copy` is admitted. -/
theorem copy_mutual_exclusion (s : ManagerState) (p : CopyParams)
    (cp : CopyCompleteParams) (now t : Nat)
    (hne : s.configured_dsses ≠ []) (hp : copyParamsPresent p = true)
    (hheld : s.copy_in_progress = true) (hst : s.copy_start_time = some t) :
    (now ≤ t + 60 →
      copy_file s p now = (s, mkFailure "Copy operation already in progress")) ∧
    (t + 60 < now →
      (copy_file s p now).2.status = Status.SUCCESS ∧
      (copy_file s p now).1.copy_in_progress = true ∧
      (copy_file s p now).1.copy_start_time = some now) ∧
    ((copy_complete s cp).2.status = Status.SUCCESS →
      (copy_complete s cp).1.copy_in_progress = false ∧
      ∀ (p2 : CopyParams) (now2 : Nat), copyParamsPresent p2 = true →
        (copy_file (copy_complete s cp).1 p2 now2).2.status = Status.SUCCESS) := by
  have hnotlt : ∀ m : Nat, m ≤ t + 60 → ¬ (t + 60 < m) := fun m hm => by omega
  refine ⟨?_, ?_, ?_⟩
  · intro hle
    have hg : copyGate s now = (s, false) := by
      unfold copyGate
      rw [hheld, hst]
      show (if t + 60 < now then _ else (s, false)) = (s, false)
      rw [if_neg (hnotlt now hle)]
    unfold copy_file
    rw [if_neg hne, hg]
  · intro hlt
    have hg : copyGate s now =
        ({ s with copy_in_progress := false, copy_start_time := none }, true) := by
      unfold copyGate
      rw [hheld, hst]
      show (if t + 60 < now then _ else (s, false)) = _
      rw [if_pos hlt]
    unfold copy_file
    rw [if_neg hne, hg]
    simp [hp, copyAdmit]
  · intro hsucc
    unfold copy_complete at hsucc ⊢
    cases hpar : copyCompleteParamsPresent cp with
    | false => simp [hheld, hpar, mkFailure] at hsucc
    | true =>
      cases hdss : s.configured_dsses.lookup cp.dss_name with
      | none => simp [hheld, hpar, hdss, mkFailure] at hsucc
      | some dss =>
        simp only [hheld, Bool.not_true, Bool.false_eq_true, if_false, hdss,
          Option.isNone_some]
        constructor
        · trivial
        · intro p2 now2 hp2
          have hcfg : ({ (setDssFiles s cp.dss_name cp.file_name
              ⟨cp.file_size, cp.owner⟩) with copy_in_progress := false } :
                ManagerState).configured_dsses =
              s.configured_dsses.map (fun kv =>
                if kv.1 == cp.dss_name then
                  (kv.1,
                    { kv.2 with
                      files := dictInsert cp.file_name ⟨cp.file_size, cp.owner⟩ kv.2.files })
                else kv) := rfl
          unfold copy_file
          rw [if_neg (by rw [hcfg]; simp only [ne_eq, List.map_eq_nil_iff]; exact hne)]
          have hg2 : copyGate ({ (setDssFiles s cp.dss_name cp.file_name
              ⟨cp.file_size, cp.owner⟩) with copy_in_progress := false }) now2 =
              (({ (setDssFiles s cp.dss_name cp.file_name
                ⟨cp.file_size, cp.owner⟩) with copy_in_progress := false }), true) := by
            unfold copyGate
            rw [if_neg (by simp)]
          rw [hg2]
          simp [hp2, copyAdmit]

/-- Witness for C4: one DSS, section held since `t = 0`, probes at
`now = 30`. -/
theorem copy_mutual_exclusion_witness :
    copy_file ⟨[], [], [("A", ⟨3, 128, [], [], "u1"⟩)], true, [], false, false,
        some 0, none⟩ ⟨"f", 5, "u1"⟩ 30 =
      (⟨[], [], [("A", ⟨3, 128, [], [], "u1"⟩)], true, [], false, false,
        some 0, none⟩, mkFailure "Copy operation already in progress") :=
  (copy_mutual_exclusion ⟨[], [], [("A", ⟨3, 128, [], [], "u1"⟩)], true, [],
      false, false, some 0, none⟩ ⟨"f", 5, "u1"⟩ ⟨"f", 5, "u1", "A"⟩ 30 0
      (by decide) (by decide) (by decide) (by decide)).1 (by decide)

theorem nodup_append_singleton {α : Type} (l : List α) (x : α)
    (h : l.Nodup) (hx : x ∉ l) : (l ++ [x]).Nodup := by
  rw [List.nodup_append]
  refine ⟨h, List.nodup_singleton x, ?_⟩
  intro a ha hb
  simp only [List.mem_singleton] at hb
  subst hb
  exact hx ha

theorem nodup_insert_middle {α : Type} (A B : List α) (x : α)
    (h : (A ++ B).Nodup) (hxa : x ∉ A) (hxb : x ∉ B) :
    ((A ++ [x]) ++ B).Nodup := by
  rw [List.nodup_append] at h ⊢
  obtain ⟨hA, hB, hAB⟩ := h
  refine ⟨nodup_append_singleton A x hA hxa, hB, ?_⟩
  intro a ha
  rw [List.mem_append] at ha
  rcases ha with ha | ha
  · exact hAB ha
  · simp only [List.mem_singleton] at ha
    subst ha
    exact hxb

theorem nodup_append_snoc {α : Type} (A B : List α) (x : α)
    (h : (A ++ B).Nodup) (hxa : x ∉ A) (hxb : x ∉ B) :
    (A ++ (B ++ [x])).Nodup := by
  rw [List.nodup_append] at h ⊢
  obtain ⟨hA, hB, hAB⟩ := h
  refine ⟨hA, nodup_append_singleton B x hB hxb, ?_⟩
  intro a ha hmem
  rw [List.mem_append] at hmem
  rcases hmem with hm | hm
  · exact hAB ha hm
  · simp only [List.mem_singleton] at hm
    subst hm
    exact hxa ha

theorem nodup_append_sublist {α : Type} (A A2 B B2 : List α)
    (h : (A ++ B).Nodup) (hA : A2.Sublist A) (hB : B2.Sublist B) :
    (A2 ++ B2).Nodup :=
  ((hA.append hB).nodup) h

/-- Ports of registered users never matching a fresh pair: extracting the
membership facts from a failed `any` check. -/
theorem not_mem_port_of_any_eq_false {γ : Type} (l : List (String × γ))
    (f g : γ → Nat) (m c : Nat)
    (h : l.any (fun kv => f kv.2 == m || g kv.2 == c) = false) :
    m ∉ l.map (fun kv => f kv.2) ∧ c ∉ l.map (fun kv => g kv.2) := by
  constructor
  · intro hmem
    rw [List.mem_map] at hmem
    obtain ⟨kv, hkv, hport⟩ := hmem
    have : l.any (fun kv => f kv.2 == m || g kv.2 == c) = true := by
      rw [List.any_eq_true]
      exact ⟨kv, hkv, by simp [hport]⟩
    rw [h] at this
    exact Bool.noConfusion this
  · intro hmem
    rw [List.mem_map] at hmem
    obtain ⟨kv, hkv, hport⟩ := hmem
    have : l.any (fun kv => f kv.2 == m || g kv.2 == c) = true := by
      rw [List.any_eq_true]
      exact ⟨kv, hkv, by simp [hport]⟩
    rw [h] at this
    exact Bool.noConfusion this

theorem not_mem_name_of_any_eq_false {γ : Type} (l : List (String × γ))
    (nm : String) (h : l.any (fun kv => kv.1 == nm) = false) :
    nm ∉ l.map Prod.fst := by
  intro hmem
  rw [List.mem_map] at hmem
  obtain ⟨kv, hkv, hname⟩ := hmem
  have : l.any (fun kv => kv.1 == nm) = true := by
    rw [List.any_eq_true]
    exact ⟨kv, hkv, by simp [hname]⟩
  rw [h] at this
  exact Bool.noConfusion this

theorem regInvariant_step (s : ManagerState) (op : RegOp)
    (h : RegInvariant s) : RegInvariant (applyRegOp s op) := by
  obtain ⟨hun, hdn, hmp, hcp⟩ := h
  cases op with
  | regUser p =>
    show RegInvariant (register_user s p).1
    unfold register_user
    split_ifs with h1 h2 h3 h4 h5
    · exact ⟨hun, hdn, hmp, hcp⟩
    · exact ⟨hun, hdn, hmp, hcp⟩
    · exact ⟨hun, hdn, hmp, hcp⟩
    · exact ⟨hun, hdn, hmp, hcp⟩
    · exact ⟨hun, hdn, hmp, hcp⟩
    · rw [Bool.not_eq_true] at h4 h5
      obtain ⟨hmu, hcu⟩ := not_mem_port_of_any_eq_false s.registered_users
        (fun u => u.m_port) (fun u => u.c_port) p.m_port p.c_port h4
      obtain ⟨hmd, hcd⟩ := not_mem_port_of_any_eq_false s.registered_disks
        (fun d => d.m_port) (fun d => d.c_port) p.m_port p.c_port h5
      have hnm : p.name ∉ s.registered_users.map Prod.fst :=
        not_mem_name_of_any_eq_false s.registered_users p.name
          (Bool.not_eq_true _ ▸ h3)
      refine ⟨?_, hdn, ?_, ?_⟩
      · simp only [List.map_append, List.map_cons, List.map_nil]
        exact nodup_append_singleton _ p.name hun hnm
      · unfold mPorts at hmp ⊢
        simp only [List.map_append, List.map_cons, List.map_nil]
        exact nodup_insert_middle _ _ p.m_port hmp hmu hmd
      · unfold cPorts at hcp ⊢
        simp only [List.map_append, List.map_cons, List.map_nil]
        exact nodup_insert_middle _ _ p.c_port hcp hcu hcd
  | regDisk p =>
    show RegInvariant (register_disk s p).1
    unfold register_disk
    split_ifs with h1 h2 h3 h4 h5
    · exact ⟨hun, hdn, hmp, hcp⟩
    · exact ⟨hun, hdn, hmp, hcp⟩
    · exact ⟨hun, hdn, hmp, hcp⟩
    · exact ⟨hun, hdn, hmp, hcp⟩
    · exact ⟨hun, hdn, hmp, hcp⟩
    · rw [Bool.not_eq_true] at h4 h5
      obtain ⟨hmu, hcu⟩ := not_mem_port_of_any_eq_false s.registered_users
        (fun u => u.m_port) (fun u => u.c_port) p.m_port p.c_port h4
      obtain ⟨hmd, hcd⟩ := not_mem_port_of_any_eq_false s.registered_disks
        (fun d => d.m_port) (fun d => d.c_port) p.m_port p.c_port h5
      have hnm : p.name ∉ s.registered_disks.map Prod.fst :=
        not_mem_name_of_any_eq_false s.registered_disks p.name
          (Bool.not_eq_true _ ▸ h3)
      refine ⟨hun, ?_, ?_, ?_⟩
      · simp only [List.map_append, List.map_cons, List.map_nil]
        exact nodup_append_singleton _ p.name hdn hnm
      · unfold mPorts at hmp ⊢
        simp only [List.map_append, List.map_cons, List.map_nil]
        exact nodup_append_snoc _ _ p.m_port hmp hmu hmd
      · unfold cPorts at hcp ⊢
        simp only [List.map_append, List.map_cons, List.map_nil]
        exact nodup_append_snoc _ _ p.c_port hcp hcu hcd
  | deregUser nm =>
    show RegInvariant (deregister_user s nm).1
    unfold deregister_user
    split_ifs with h1 h2
    · exact ⟨hun, hdn, hmp, hcp⟩
    · exact ⟨hun, hdn, hmp, hcp⟩
    · have hsub : (s.registered_users.eraseP (fun kv => kv.1 == nm)).Sublist
          s.registered_users := List.eraseP_sublist _
      refine ⟨((hsub.map Prod.fst).nodup) hun, hdn, ?_, ?_⟩
      · exact nodup_append_sublist _ _ _ _ hmp
          (hsub.map (fun kv => kv.2.m_port)) (List.Sublist.refl _)
      · exact nodup_append_sublist _ _ _ _ hcp
          (hsub.map (fun kv => kv.2.c_port)) (List.Sublist.refl _)
  | deregDisk nm =>
    show RegInvariant (deregister_disk s nm).1
    unfold deregister_disk
    split_ifs with h1
    · exact ⟨hun, hdn, hmp, hcp⟩
    · cases hl : s.registered_disks.lookup nm with
      | none => exact ⟨hun, hdn, hmp, hcp⟩
      | some di =>
        simp only [hl]
        split_ifs with h2
        · exact ⟨hun, hdn, hmp, hcp⟩
        · have hsub : (s.registered_disks.eraseP (fun kv => kv.1 == nm)).Sublist
              s.registered_disks := List.eraseP_sublist _
          refine ⟨hun, ((hsub.map Prod.fst).nodup) hdn, ?_, ?_⟩
          · exact nodup_append_sublist _ _ _ _ hmp
              (List.Sublist.refl _) (hsub.map (fun kv => kv.2.m_port))
          · exact nodup_append_sublist _ _ _ _ hcp
              (List.Sublist.refl _) (hsub.map (fun kv => kv.2.c_port))

theorem regInvariant_fold (ops : List RegOp) :
    ∀ s : ManagerState, RegInvariant s → RegInvariant (applyRegOps s ops) := by
  induction ops with
  | nil => intro s h; exact h
  | cons op rest ih =>
    intro s h
    exact ih (applyRegOp s op) (regInvariant_step s op h)

/-- Counterexample for C3 as stated: registering user `u1` with ports
`(m=100, c=200)` and then disk `d1` with the swapped ports `(m=200, c=100)`
both SUCCEED (the code only compares management ports with management ports
and command ports with command ports), leaving ports 100 and 200 each bound
to two registered entities. -/
theorem port_uniqueness_cx :
    (register_user initialState ⟨"u1", "127.0.0.1", 100, 200⟩).2.status =
      Status.SUCCESS ∧
    (register_disk (register_user initialState ⟨"u1", "127.0.0.1", 100, 200⟩).1
      ⟨"d1", "127.0.0.1", 200, 100⟩).2.status = Status.SUCCESS ∧
    ¬ (∀ q, entitiesBoundTo
        (register_disk (register_user initialState ⟨"u1", "127.0.0.1", 100, 200⟩).1
          ⟨"d1", "127.0.0.1", 200, 100⟩).1 q ≤ 1) :=
  ⟨by decide, by decide, fun h => absurd (h 100) (by decide)⟩

/-- **C3 (amended).** After every sequence of register/deregister
operations from the empty registries, no two registered entities share a
name within their table, no two entities share a management port across
both tables, and no two entities share a command port across both tables
(registration rejects a request whose `m_port` equals a registered
`m_port` or whose `c_port` equals a registered `c_port`; it does not
compare a management port against a command port). -/
theorem registration_invariant (ops : List RegOp) :
    RegInvariant (applyRegOps initialState ops) :=
  regInvariant_fold ops initialState
    (by simp [RegInvariant, mPorts, cPorts, initialState])

theorem copyGate_fields (s : ManagerState) (now : Nat) :
    (copyGate s now).1.configured_dsses = s.configured_dsses ∧
    (copyGate s now).1.dss_selection_index = s.dss_selection_index := by
  unfold copyGate
  split
  · split
    · exact ⟨rfl, rfl⟩
    · split
      · exact ⟨rfl, rfl⟩
      · exact ⟨rfl, rfl⟩
  · exact ⟨rfl, rfl⟩

theorem copyGate_false (s : ManagerState) (now : Nat) :
    (copyGate s now).2 = false → (copyGate s now).1 = s := by
  unfold copyGate
  split
  · split
    · intro h; simp at h
    · split
      · intro h; simp at h
      · intro _; rfl
  · intro h; simp at h

/-- Behaviour of a single `copy` request: a successful admission preserves
the DSS directory, advances the round-robin counter by exactly one, and
returns the DSS at position `counter mod D` of the lexicographically
sorted name list; a rejected request leaves both directory and counter
untouched. -/
theorem copy_file_spec (s : ManagerState) (p : CopyParams) (now : Nat) :
    ((copy_file s p now).2.status = Status.SUCCESS →
      (copy_file s p now).1.configured_dsses = s.configured_dsses ∧
      (copy_file s p now).1.dss_selection_index =
        some (s.dss_selection_index.getD 0 + 1) ∧
      ∃ d, (copy_file s p now).2.data = some d ∧
        d.dss_name = (sortedDssNames s).getD
          (s.dss_selection_index.getD 0 % (sortedDssNames s).length) "") ∧
    ((copy_file s p now).2.status = Status.FAILURE →
      (copy_file s p now).1.configured_dsses = s.configured_dsses ∧
      (copy_file s p now).1.dss_selection_index = s.dss_selection_index) := by
  unfold copy_file
  by_cases hd : s.configured_dsses = []
  · rw [if_pos hd]
    exact ⟨fun hsucc => by simp [mkFailure] at hsucc, fun _ => ⟨rfl, rfl⟩⟩
  · rw [if_neg hd]
    rcases hg : copyGate s now with ⟨s1, b⟩
    have hfields := copyGate_fields s now
    rw [hg] at hfields
    obtain ⟨hcfg, hidx⟩ := hfields
    cases b with
    | false =>
      have hs1 : s1 = s := by
        have h2 := copyGate_false s now (by rw [hg])
        rw [hg] at h2
        exact h2
      constructor
      · intro hsucc; simp [mkFailure] at hsucc
      · intro _; subst hs1; exact ⟨rfl, rfl⟩
    | true =>
      cases hpp : copyParamsPresent p with
      | false =>
        constructor
        · intro hsucc; simp [hpp, mkFailure] at hsucc
        · intro _
          simp only [hpp]
          exact ⟨hcfg, hidx⟩
      | true =>
        have hsort : sortedDssNames s1 = sortedDssNames s := by
          unfold sortedDssNames
          rw [hcfg]
        constructor
        · intro _
          simp only [hpp]
          refine ⟨hcfg, ?_, ?_⟩
          · rw [← hidx]; rfl
          · refine ⟨_, rfl, ?_⟩
            show (sortedDssNames s1).getD
              (s1.dss_selection_index.getD 0 % (sortedDssNames s1).length) "" = _
            rw [hsort, hidx]
        · intro hfail
          simp [hpp, copyAdmit] at hfail

theorem copy_complete_fields (s : ManagerState) (cp : CopyCompleteParams) :
    (copy_complete s cp).1.configured_dsses.map Prod.fst =
      s.configured_dsses.map Prod.fst ∧
    (copy_complete s cp).1.dss_selection_index = s.dss_selection_index := by
  unfold copy_complete
  split
  · exact ⟨rfl, rfl⟩
  · split
    · exact ⟨rfl, rfl⟩
    · split
      · exact ⟨rfl, rfl⟩
      · constructor
        · show ((setDssFiles s cp.dss_name cp.file_name
            ⟨cp.file_size, cp.owner⟩).configured_dsses).map Prod.fst = _
          unfold setDssFiles
          rw [List.map_map]
          apply List.map_congr_left
          intro kv _
          simp only [Function.comp_apply]
          split <;> rfl
        · rfl

theorem sortedDssNames_copy_complete (s : ManagerState) (cp : CopyCompleteParams) :
    sortedDssNames (copy_complete s cp).1 = sortedDssNames s := by
  unfold sortedDssNames
  rw [(copy_complete_fields s cp).1]

theorem mod_shift_iff (D i m : Nat) (hD : 0 < D) (hi : i < D) :
    (i + m) % D = i ↔ m % D = 0 := by
  have hr : m % D < D := Nat.mod_lt m hD
  have key : (i + m) % D = (i + m % D) % D := by
    conv_lhs => rw [← Nat.div_add_mod m D]
    rw [show i + (D * (m / D) + m % D) = i + m % D + D * (m / D) by omega]
    exact Nat.add_mul_mod_self_left (i + m % D) D (m / D)
  rw [key]
  constructor
  · intro h
    by_cases hir : i + m % D < D
    · rw [Nat.mod_eq_of_lt hir] at h; omega
    · have h2 : (i + m % D) % D = i + m % D - D := by
        rw [Nat.mod_eq_sub_mod (by omega), Nat.mod_eq_of_lt (by omega)]
      rw [h2] at h
      omega
  · intro h
    rw [h, Nat.add_zero, Nat.mod_eq_of_lt hi]

theorem ceil_step (D i k : Nat) (hD : 0 < D) (hi : i < D) :
    (k + 1 - i + D - 1) / D =
      (k - i + D - 1) / D + (if k % D = i then 1 else 0) := by
  by_cases hki : k < i
  · have h1 : k + 1 - i = 0 := by omega
    have h2 : k - i = 0 := by omega
    have h3 : k % D = k := Nat.mod_eq_of_lt (by omega)
    rw [h1, h2, if_neg (by rw [h3]; omega), Nat.add_zero]
  · push_neg at hki
    have hk : k = i + (k - i) := by omega
    have hiff : (k % D = i) ↔ ((k - i) % D = 0) := by
      conv_lhs => rw [hk]
      exact mod_shift_iff D i (k - i) hD hi
    have hq := Nat.div_add_mod (k - i) D
    have hr : (k - i) % D < D := Nat.mod_lt (k - i) hD
    have hd1 : D * ((k - i) / D + 1) = D * ((k - i) / D) + D := Nat.mul_succ ..
    have hL : k + 1 - i + D - 1 = (k - i) + D := by omega
    rw [hL]
    by_cases hr0 : (k - i) % D = 0
    · rw [if_pos (hiff.mpr hr0)]
      have e1 : (k - i) + D = D * ((k - i) / D + 1) := by omega
      have e2 : k - i + D - 1 = D * ((k - i) / D) + (D - 1) := by omega
      rw [e2, e1, Nat.mul_div_cancel_left _ hD, Nat.mul_add_div hD,
        Nat.div_eq_of_lt (show D - 1 < D by omega)]
    · rw [if_neg (fun hcc => hr0 (hiff.mp hcc))]
      have e1 : (k - i) + D = D * ((k - i) / D) + ((k - i) % D + D) := by omega
      have e2 : k - i + D - 1 =
          D * ((k - i) / D + 1) + ((k - i) % D - 1) := by omega
      rw [e2, e1, Nat.mul_add_div hD, Nat.mul_add_div hD,
        Nat.add_div_right _ hD, Nat.div_eq_of_lt hr,
        Nat.div_eq_of_lt (show (k - i) % D - 1 < D by omega)]

theorem countP_mod_range (D i : Nat) (hD : 0 < D) (hi : i < D) :
    ∀ k, (List.range k).countP (fun j => j % D == i) = (k - i + D - 1) / D := by
  intro k
  induction k with
  | zero =>
    rw [List.range_zero, List.countP_nil,
      show 0 - i + D - 1 = D - 1 by omega,
      Nat.div_eq_of_lt (show D - 1 < D by omega)]
  | succ k ih =>
    rw [List.range_succ, List.countP_append, ih, ceil_step D i k hD hi]
    congr 1
    rw [List.countP_cons, List.countP_nil, Nat.zero_add]
    by_cases hcc : k % D = i
    · rw [if_pos hcc, if_pos (by simp [hcc])]
    · rw [if_neg hcc, if_neg (by simp [hcc])]

/-- Along any trace of copy-phase requests, the successful admissions
select, in order, the DSS names at positions `c, c+1, …` (mod `D`) of the
fixed sorted name list, where `c` is the starting counter. -/
theorem runCopyTrace_spec (L : List String) (_hL : L ≠ []) :
    ∀ (ops : List CopyOp) (s : ManagerState) (c : Nat),
      sortedDssNames s = L → s.dss_selection_index.getD 0 = c →
      ∃ k, (runCopyTrace s ops).2 =
        (List.range k).map (fun j => L.getD ((c + j) % L.length) "") := by
  intro ops
  induction ops with
  | nil => intro s c _ _; exact ⟨0, rfl⟩
  | cons op rest ih =>
    intro s c hs hc
    cases op with
    | completeReq cp =>
      exact ih (copy_complete s cp).1 c
        (by rw [sortedDssNames_copy_complete]; exact hs)
        (by rw [(copy_complete_fields s cp).2]; exact hc)
    | copyReq p now =>
      have hspec := copy_file_spec s p now
      cases hst : (copy_file s p now).2.status with
      | FAILURE =>
        obtain ⟨hcfg, hidx⟩ := hspec.2 hst
        obtain ⟨k, hk⟩ := ih (copy_file s p now).1 c
          (by unfold sortedDssNames; rw [hcfg]; exact hs)
          (by rw [hidx]; exact hc)
        refine ⟨k, ?_⟩
        simp only [runCopyTrace, hst]
        exact hk
      | SUCCESS =>
        obtain ⟨hcfg, hidx, d, hd, hdname⟩ := hspec.1 hst
        obtain ⟨k, hk⟩ := ih (copy_file s p now).1 (c + 1)
          (by unfold sortedDssNames; rw [hcfg]; exact hs)
          (by rw [hidx, Option.getD_some, hc])
        refine ⟨k + 1, ?_⟩
        simp only [runCopyTrace, hst, hd]
        rw [hk, List.range_succ_eq_map, List.map_cons, List.map_map]
        congr 1
        · rw [hdname, hs, hc, Nat.add_zero]
        · apply List.map_congr_left
          intro j _
          simp only [Function.comp_apply]
          congr 2
          omega

/-- **C6.** With the DSS directory fixed (only copy-phase requests in the
trace) and `D = |sorted names| > 0`, starting from an uninitialised
round-robin counter: the successful admissions select positions
`0, 1, 2, … (mod D)` of the lexicographically sorted DSS-name list, so
after `k` admissions DSS `i` was chosen `⌈(k−i)/D⌉ = (k−i+D−1)/D` times;
and a rejected `copy` request never advances the counter. -/
theorem round_robin_selection (s0 : ManagerState) (ops : List CopyOp)
    (hidx : s0.dss_selection_index = none)
    (hne : sortedDssNames s0 ≠ []) (hnd : (sortedDssNames s0).Nodup) :
    (∃ k, (runCopyTrace s0 ops).2 =
        (List.range k).map (fun j =>
          (sortedDssNames s0).getD (j % (sortedDssNames s0).length) "") ∧
      ∀ i, i < (sortedDssNames s0).length →
        (runCopyTrace s0 ops).2.count ((sortedDssNames s0).getD i "") =
          (k - i + (sortedDssNames s0).length - 1) /
            (sortedDssNames s0).length) ∧
    (∀ (s : ManagerState) (p : CopyParams) (now : Nat),
      (copy_file s p now).2.status = Status.FAILURE →
      (copy_file s p now).1.dss_selection_index = s.dss_selection_index) := by
  have hD : 0 < (sortedDssNames s0).length := List.length_pos.mpr hne
  obtain ⟨k, hk⟩ := runCopyTrace_spec (sortedDssNames s0) hne ops s0 0 rfl
    (by rw [hidx]; rfl)
  have hk' : (runCopyTrace s0 ops).2 = (List.range k).map (fun j =>
      (sortedDssNames s0).getD (j % (sortedDssNames s0).length) "") := by
    rw [hk]
    apply List.map_congr_left
    intro j _
    rw [Nat.zero_add]
  constructor
  · refine ⟨k, hk', ?_⟩
    intro i hi
    rw [hk', List.count_eq_countP, List.countP_map]
    have hfun : ((fun x => x == (sortedDssNames s0).getD i "") ∘
        (fun j => (sortedDssNames s0).getD
          (j % (sortedDssNames s0).length) "")) =
        (fun j => j % (sortedDssNames s0).length == i) := by
      funext j
      simp only [Function.comp_apply]
      have hjD : j % (sortedDssNames s0).length < (sortedDssNames s0).length :=
        Nat.mod_lt j hD
      by_cases hji : j % (sortedDssNames s0).length = i
      · rw [hji]
        simp
      · have hgetne : (sortedDssNames s0).getD
            (j % (sortedDssNames s0).length) "" ≠
            (sortedDssNames s0).getD i "" := by
          rw [List.getD_eq_getElem _ _ hjD, List.getD_eq_getElem _ _ hi]
          intro hcc
          exact hji ((List.Nodup.getElem_inj_iff hnd).mp hcc)
        rw [beq_eq_false_iff_ne.mpr hgetne, beq_eq_false_iff_ne.mpr hji]
    rw [hfun]
    exact countP_mod_range (sortedDssNames s0).length i hD hi k
  · intro s p now hf
    exact ((copy_file_spec s p now).2 hf).2

/-- Witness for C6: two DSSs `B`, `A` (sorted: `A`, `B`), a trace of three
admitted copies interleaved with completions — selections `A, B, A`. -/
theorem round_robin_selection_witness :
    (∃ k, (runCopyTrace ⟨[], [], [("B", ⟨3, 128, [], [], "u"⟩),
          ("A", ⟨3, 128, [], [], "u"⟩)], false, [], false, false, none, none⟩
        [CopyOp.copyReq ⟨"f", 1, "u"⟩ 0, CopyOp.completeReq ⟨"f", 1, "u", "A"⟩,
          CopyOp.copyReq ⟨"g", 1, "u"⟩ 1, CopyOp.completeReq ⟨"g", 1, "u", "B"⟩,
          CopyOp.copyReq ⟨"h", 1, "u"⟩ 2]).2 =
        (List.range k).map (fun j =>
          (sortedDssNames ⟨[], [], [("B", ⟨3, 128, [], [], "u"⟩),
            ("A", ⟨3, 128, [], [], "u"⟩)], false, [], false, false,
            none, none⟩).getD (j % (sortedDssNames ⟨[], [],
              [("B", ⟨3, 128, [], [], "u"⟩), ("A", ⟨3, 128, [], [], "u"⟩)],
              false, [], false, false, none, none⟩).length) "") ∧
      ∀ i, i < (sortedDssNames ⟨[], [], [("B", ⟨3, 128, [], [], "u"⟩),
          ("A", ⟨3, 128, [], [], "u"⟩)], false, [], false, false,
          none, none⟩).length →
        (runCopyTrace ⟨[], [], [("B", ⟨3, 128, [], [], "u"⟩),
            ("A", ⟨3, 128, [], [], "u"⟩)], false, [], false, false, none, none⟩
          [CopyOp.copyReq ⟨"f", 1, "u"⟩ 0, CopyOp.completeReq ⟨"f", 1, "u", "A"⟩,
            CopyOp.copyReq ⟨"g", 1, "u"⟩ 1, CopyOp.completeReq ⟨"g", 1, "u", "B"⟩,
            CopyOp.copyReq ⟨"h", 1, "u"⟩ 2]).2.count
            ((sortedDssNames ⟨[], [], [("B", ⟨3, 128, [], [], "u"⟩),
              ("A", ⟨3, 128, [], [], "u"⟩)], false, [], false, false,
              none, none⟩).getD i "") =
          (k - i + (sortedDssNames ⟨[], [], [("B", ⟨3, 128, [], [], "u"⟩),
            ("A", ⟨3, 128, [], [], "u"⟩)], false, [], false, false,
            none, none⟩).length - 1) /
            (sortedDssNames ⟨[], [], [("B", ⟨3, 128, [], [], "u"⟩),
              ("A", ⟨3, 128, [], [], "u"⟩)], false, [], false, false,
              none, none⟩).length) ∧
    (∀ (s : ManagerState) (p : CopyParams) (now : Nat),
      (copy_file s p now).2.status = Status.FAILURE →
      (copy_file s p now).1.dss_selection_index = s.dss_selection_index) :=
  round_robin_selection _ _ (by decide) (by decide) (by decide)

end DssVerify
